import Mathlib

/-!
# Verification of the CalBook availability engine and booking commit path

A shallow embedding of the core of the `calendar-booking` repository:

* the interval algebra of `src/lib/availability.ts` (`mergeBusyBlocks`,
  `isSlotBusy`, `generateDayCandidateSlots`, `generateAvailableSlots`,
  `isSlotAvailable`);
* the booking commit path of `src/app/api/bookings/route.ts` (`POST`);
* the per-account busy composition of `src/lib/google-calendar.ts`
  (`getCompositeBusy`, the token-refresh step of `getAuthenticatedClient`).

Modelling conventions:

* Instants are minutes since the Unix epoch, as `Int` (the source uses
  JavaScript `Date`; all quantities handled by the engine are whole minutes).
* Timezones are fixed UTC offsets in minutes.  The source delegates zone
  arithmetic to `date-fns-tz`; a fixed offset captures that arithmetic away
  from DST transitions.  The server's own local zone (used implicitly by
  `startOfDay`, `getDay`, `format` from `date-fns`) is the `serverOff`
  parameter; an event type's host timezone is the `timezone` field of its
  configuration.
* Database reads are pure functions over an explicit state (lists of rows);
  external I/O outcomes are explicit parameters.
-/

namespace CalBook

/-- A busy interval, half-open `[start, stop)`.  Mirrors the `BusyBlock`
type of `src/types` (`start`, `end`, `calendarId`); the `end` field is
renamed `stop` because `end` is a Lean keyword. -/
structure BusyBlock where
  start : Int
  stop : Int
  calendarId : String
  deriving Repr, DecidableEq

/-- date-fns `areIntervalsOverlapping` without the `inclusive` option, as
called by `isSlotBusy`: `leftStart < rightEnd && rightStart < leftEnd`. -/
def areIntervalsOverlapping (leftStart leftEnd rightStart rightEnd : Int) : Bool :=
  decide (leftStart < rightEnd) && decide (rightStart < leftEnd)

/-- `isSlotBusy` from `src/lib/availability.ts`: expand the slot by the
buffers, then test overlap against each busy block. -/
def isSlotBusy (slotStart slotEnd : Int) (busyBlocks : List BusyBlock)
    (bufferBefore bufferAfter : Int) : Bool :=
  let slotWithBufferStart := slotStart - bufferBefore
  let slotWithBufferEnd := slotEnd + bufferAfter
  busyBlocks.any fun block =>
    areIntervalsOverlapping slotWithBufferStart slotWithBufferEnd block.start block.stop

/-- The sort at the head of `mergeBusyBlocks`:
`[...blocks].sort((a, b) => a.start.getTime() - b.start.getTime())`,
i.e. a stable sort ascending by `start`. -/
def sortByStart (blocks : List BusyBlock) : List BusyBlock :=
  blocks.mergeSort fun a b => decide (a.start ≤ b.start)

/-- The accumulation loop of `mergeBusyBlocks`: `merged` ends with `last`;
a `current` block starting at or before `last.end` extends `last` in place
(`last.end = current.end` only when `current.end > last.end`, i.e. the new
end is the max), otherwise `current` starts a new output block. -/
def mergeLoop (last : BusyBlock) : List BusyBlock → List BusyBlock
  | [] => [last]
  | current :: rest =>
    if current.start ≤ last.stop then
      mergeLoop { last with stop := max last.stop current.stop } rest
    else
      last :: mergeLoop current rest

/-- `mergeBusyBlocks` from `src/lib/availability.ts`. -/
def mergeBusyBlocks (blocks : List BusyBlock) : List BusyBlock :=
  match sortByStart blocks with
  | [] => []
  | b :: rest => mergeLoop b rest

/-- `t` lies in the half-open interval of block `b`. -/
def inBlock (b : BusyBlock) (t : Int) : Prop :=
  b.start ≤ t ∧ t < b.stop

instance (b : BusyBlock) (t : Int) : Decidable (inBlock b t) := by
  unfold inBlock; infer_instance

/-- `t` lies in the union of the half-open intervals of `bs`. -/
def covers (bs : List BusyBlock) (t : Int) : Prop :=
  ∃ b ∈ bs, inBlock b t

instance (bs : List BusyBlock) (t : Int) : Decidable (covers bs t) := by
  unfold covers; infer_instance

/-- The two half-open intervals `[s1, e1)` and `[s2, e2)` have a common
point. -/
def intersects (s1 e1 s2 e2 : Int) : Prop :=
  ∃ t : Int, s1 ≤ t ∧ t < e1 ∧ s2 ≤ t ∧ t < e2

/-- date-fns `startOfDay`: server-local midnight of the instant `t`, in the
fixed-offset model (`serverOff` = server's UTC offset in minutes). -/
def startOfDay (serverOff t : Int) : Int :=
  1440 * ((t + serverOff) / 1440) - serverOff

/-- date-fns `getDay`: server-local day of week of `t`
(0 = Sunday … 6 = Saturday; the Unix epoch day is a Thursday). -/
def getDay (serverOff t : Int) : Int :=
  ((t + serverOff) / 1440 + 4) % 7

/-- date-fns-tz `toZonedTime`: shift `t` so that its server-local fields
show the wall clock of the zone with offset `off`. -/
def toZonedTime (serverOff off t : Int) : Int :=
  t + off - serverOff

/-- date-fns-tz `fromZonedTime`: read the server-local fields of `d` as a
wall clock in the zone with offset `off` and return the instant. -/
def fromZonedTime (serverOff off d : Int) : Int :=
  d + serverOff - off

/-- date-fns `format(d, 'HH:mm')`: the server-local time of day of `d` as
an (hour, minute) pair.  JS string comparison of two such zero-padded
5-character strings is lexicographic comparison of those pairs. -/
def formatHM (serverOff d : Int) : Int × Int :=
  let m := (d + serverOff) % 1440
  (m / 60, m % 60)

/-- JS `<` on two "HH:mm" strings with two-digit fields, as used by the
working-hours check of `isSlotAvailable`: lexicographic on the
(hours, minutes) pairs. -/
def hmLt (a b : Int × Int) : Bool :=
  decide (a.1 < b.1) || (decide (a.1 = b.1) && decide (a.2 < b.2))

/-- A working-hours rule (`WorkingHours` of src/types): `day` 0–6 and the
"HH:mm" `start`/`end` strings, stored already split into (hours, minutes)
as `parseTimeString` does; `end` is renamed `stop`. -/
structure WorkingHours where
  day : Int
  start : Int × Int
  stop : Int × Int
  deriving Repr, DecidableEq

/-- `EventTypeConfig` as assembled by `getEventTypeConfig`
(`timezone` is the admin's timezone, here its fixed UTC offset). -/
structure EventTypeConfig where
  userId : String
  duration : Int
  bufferBefore : Int
  bufferAfter : Int
  minimumNotice : Int
  schedulingWindow : Int
  slotInterval : Int
  workingHours : List WorkingHours
  treatTentativeAsBusy : Bool
  includeAllDayEvents : Bool
  timezone : Int
  deriving Repr

/-- Booking lifecycle states (`BookingStatus` of src/types). -/
inductive BookingStatus where
  | PENDING
  | CONFIRMED
  | CANCELLED
  | COMPLETED
  deriving Repr, DecidableEq, BEq

/-- A stored booking row, restricted to the fields the verified paths
read or write. -/
structure Booking where
  uid : String
  userId : String
  startTime : Int
  endTime : Int
  status : BookingStatus
  idempotencyKey : Option String
  meetingUrl : Option String
  googleEventId : Option String
  deriving Repr, DecidableEq

/-- Modelled from the spec: the external free/busy service behind
`getCompositeBusy` (the Google API itself is not under src/).  Spec §4.2:
"Output: list of BusyBlocks clipped to the window."  `world` is the fixed
set of busy intervals on the host's selected calendars; a query returns
every block meeting `[timeMin, timeMax)`, clipped to it. -/
def compositeBusy (world : List BusyBlock) (timeMin timeMax : Int) : List BusyBlock :=
  world.filterMap fun b =>
    if max b.start timeMin < min b.stop timeMax then
      some { start := max b.start timeMin, stop := min b.stop timeMax,
             calendarId := b.calendarId }
    else none

/-- The slot-generation loop of `generateDayCandidateSlots`: starting at
`currentSlotStart`, emit `[cur, cur + duration)` while the slot end does
not pass `workingDayEnd`, stepping by `slotInterval`.  The positivity
arguments record the schema bounds (`duration ≥ 5`, `slotInterval ≥ 5`)
under which the source loop terminates. -/
def slotLoop (duration slotInterval workingDayEnd : Int)
    (hd : 0 < duration) (hi : 0 < slotInterval) (currentSlotStart : Int) :
    List (Int × Int) :=
  if h : workingDayEnd < currentSlotStart + duration then []
  else
    (currentSlotStart, currentSlotStart + duration) ::
      slotLoop duration slotInterval workingDayEnd hd hi (currentSlotStart + slotInterval)
termination_by (workingDayEnd - currentSlotStart).toNat
decreasing_by
  simp only [not_lt] at h
  omega

/-- `generateDayCandidateSlots`: find the working-hours rule for the
server-local weekday of `date`; `setMinutes(setHours(startOfDay(date), H), M)`
is server-local midnight of `date` plus `60*H + M` minutes (JS date setters
roll over linearly), converted by `fromZonedTime` into the first slot start
and the working-day end; then run the slot loop. -/
def generateDayCandidateSlots (serverOff : Int) (date : Int)
    (workingHours : List WorkingHours) (duration slotInterval : Int)
    (adminTimezone : Int) (hd : 0 < duration) (hi : 0 < slotInterval) :
    List (Int × Int) :=
  let dayOfWeek := getDay serverOff date
  match workingHours.find? fun wh => wh.day == dayOfWeek with
  | none => []
  | some dayConfig =>
    let base := startOfDay serverOff date
    let currentSlotStart :=
      fromZonedTime serverOff adminTimezone
        (base + 60 * dayConfig.start.1 + dayConfig.start.2)
    let workingDayEnd :=
      fromZonedTime serverOff adminTimezone
        (base + 60 * dayConfig.stop.1 + dayConfig.stop.2)
    slotLoop duration slotInterval workingDayEnd hd hi currentSlotStart

/-- An entry of the `TimeSlot[]` result of `generateAvailableSlots`
(`end` renamed `stop`). -/
structure TimeSlot where
  start : Int
  stop : Int
  available : Bool
  deriving Repr, DecidableEq

/-- The per-day while loop of `generateAvailableSlots`: step `currentDate`
one day at a time while it is before `endOfDay(effectiveEndDate)`
(`endExcl` is that bound, exclusive — the next server-local midnight),
generate the day's candidates, and keep those that respect minimum notice
and the scheduling window and are not busy. -/
def dayLoop (serverOff : Int) (cfg : EventTypeConfig) (merged : List BusyBlock)
    (minBookingTime maxBookingDate : Int) (hd : 0 < cfg.duration)
    (hi : 0 < cfg.slotInterval) (endExcl currentDate : Int) : List TimeSlot :=
  if h : currentDate < endExcl then
    (generateDayCandidateSlots serverOff (toZonedTime serverOff cfg.timezone currentDate)
        cfg.workingHours cfg.duration cfg.slotInterval cfg.timezone hd hi).filterMap
      (fun slot =>
        if slot.1 < minBookingTime then none
        else if maxBookingDate < slot.1 then none
        else if isSlotBusy slot.1 slot.2 merged cfg.bufferBefore cfg.bufferAfter then none
        else some { start := slot.1, stop := slot.2, available := true })
    ++ dayLoop serverOff cfg merged minBookingTime maxBookingDate hd hi endExcl
        (currentDate + 1440)
  else []
termination_by (endExcl - currentDate).toNat
decreasing_by omega

/-- The effective-window start of `generateAvailableSlots`:
`isAfter(startDate, minBookingTime) ? startDate : minBookingTime`. -/
def effectiveStartDate (minBookingTime startDate : Int) : Int :=
  if minBookingTime < startDate then startDate else minBookingTime

/-- The effective-window end of `generateAvailableSlots`:
`isBefore(endDate, maxBookingDate) ? endDate : maxBookingDate`. -/
def effectiveEndDate (maxBookingDate endDate : Int) : Int :=
  if endDate < maxBookingDate then endDate else maxBookingDate

/-- `generateAvailableSlots` from `src/lib/availability.ts`, over an
explicit snapshot: `world` feeds the free/busy service and `dbBookings` is
the booking table (its `prisma.booking.findMany` keeps the host's
CONFIRMED/PENDING rows with `startTime ≥ effectiveStartDate` and
`endTime ≤ effectiveEndDate`).  `minimumNotice` is in minutes and
`schedulingWindow` in days (`addDays` = 1440 minutes each in the
fixed-offset model). -/
def generateAvailableSlots (serverOff : Int) (cfg : EventTypeConfig)
    (world : List BusyBlock) (dbBookings : List Booking)
    (now startDate endDate : Int)
    (hd : 0 < cfg.duration) (hi : 0 < cfg.slotInterval) : List TimeSlot :=
  let minBookingTime := now + cfg.minimumNotice
  let maxBookingDate := now + 1440 * cfg.schedulingWindow
  let effectiveStartDate := effectiveStartDate minBookingTime startDate
  let effectiveEndDate := effectiveEndDate maxBookingDate endDate
  if effectiveEndDate < effectiveStartDate then []
  else
    let busyBlocks := compositeBusy world effectiveStartDate effectiveEndDate
    let existingBookings := dbBookings.filter fun b =>
      b.userId == cfg.userId
        && (b.status == BookingStatus.CONFIRMED || b.status == BookingStatus.PENDING)
        && decide (effectiveStartDate ≤ b.startTime)
        && decide (b.endTime ≤ effectiveEndDate)
    let allBusyBlocks := busyBlocks ++ existingBookings.map fun b =>
      { start := b.startTime, stop := b.endTime, calendarId := "bookings" }
    let mergedBusyBlocks := mergeBusyBlocks allBusyBlocks
    dayLoop serverOff cfg mergedBusyBlocks minBookingTime maxBookingDate hd hi
      (startOfDay serverOff effectiveEndDate + 1440) (startOfDay serverOff effectiveStartDate)

/-- `isSlotAvailable` from `src/lib/availability.ts`, over the same
explicit snapshot: minimum notice, scheduling window, working-hours
containment by "HH:mm" string comparison, the `prisma.booking.findFirst`
overlap query on non-cancelled (CONFIRMED/PENDING) local bookings, and the
buffered collision check against freshly fetched busy blocks covering
`[startTime − bufferBefore, endTime + bufferAfter)`. -/
def isSlotAvailable (serverOff : Int) (cfg : EventTypeConfig)
    (world : List BusyBlock) (dbBookings : List Booking)
    (now startTime endTime : Int) : Bool :=
  let minBookingTime := now + cfg.minimumNotice
  if startTime < minBookingTime then false
  else
    let maxBookingDate := now + 1440 * cfg.schedulingWindow
    if maxBookingDate < startTime then false
    else
      let startInAdminTz := toZonedTime serverOff cfg.timezone startTime
      let dayOfWeek := getDay serverOff startInAdminTz
      match cfg.workingHours.find? fun wh => wh.day == dayOfWeek with
      | none => false
      | some dayConfig =>
        let timeOfDay := formatHM serverOff startInAdminTz
        let slotEndTime := formatHM serverOff (toZonedTime serverOff cfg.timezone endTime)
        if hmLt timeOfDay dayConfig.start || hmLt dayConfig.stop slotEndTime then false
        else
          let busyBlocks :=
            compositeBusy world (startTime - cfg.bufferBefore) (endTime + cfg.bufferAfter)
          let existingBooking := dbBookings.find? fun b =>
            b.userId == cfg.userId
              && (b.status == BookingStatus.CONFIRMED || b.status == BookingStatus.PENDING)
              && ((decide (b.startTime ≤ startTime) && decide (startTime < b.endTime))
                || (decide (b.startTime < endTime) && decide (endTime ≤ b.endTime))
                || (decide (startTime ≤ b.startTime) && decide (b.endTime ≤ endTime)))
          match existingBooking with
          | some _ => false
          | none => !(isSlotBusy startTime endTime busyBlocks cfg.bufferBefore cfg.bufferAfter)

/-- An event type row, restricted to the fields the POST /bookings route
reads.  `hasDestinationCalendar` records whether the row's `calendars`
relation filtered by `isDestination: true` is non-empty. -/
structure EventType where
  id : String
  userId : String
  duration : Int
  requiresConfirmation : Bool
  isActive : Bool
  hasDestinationCalendar : Bool
  deriving Repr, DecidableEq

/-- The POST /bookings request body after zod validation.  `startTime` is
`new Date(startTimeStr)`; the raw string is kept because the derived
idempotency key hashes it. -/
structure BookingRequest where
  eventTypeId : String
  startTimeStr : String
  startTime : Int
  timezone : String
  attendeeName : String
  attendeeEmail : String
  idempotencyKey : Option String
  deriving Repr, DecidableEq

/-- The booking-relevant database state seen by the route. -/
structure DB where
  bookings : List Booking
  eventTypes : List EventType
  deriving Repr, DecidableEq

/-- The possible responses of POST /bookings: 429, 400, the 200 idempotent
replay, 404 (event type absent or inactive), 409 SlotTaken, the 500 for a
missing destination calendar, and 201 Created. -/
inductive PostResponse where
  | rateLimited
  | invalidInput
  | okExisting (uid : String) (startTime endTime : Int) (meetingUrl : Option String)
  | notFound
  | slotTaken
  | noDestination
  | created (uid : String) (startTime endTime : Int) (meetingUrl : Option String)
  deriving Repr, DecidableEq

/-- The idempotency key the route uses: the provided one, otherwise
`hashString(eventTypeId:startTimeStr:attendeeEmail:Date.now())`
(`nowMs` is the `Date.now()` millisecond reading, `hashString` the hash
from `src/lib/encryption.ts`, kept abstract). -/
def postKey (req : BookingRequest) (hashString : String → String) (nowMs : Int) : String :=
  req.idempotencyKey.getD
    (hashString (req.eventTypeId ++ ":" ++ req.startTimeStr ++ ":"
      ++ req.attendeeEmail ++ ":" ++ toString nowMs))

/-- Modelled from the spec: the Booking table's uniqueness constraints
(schema.prisma is not under src/) — unique `(host, start, end)` restricted
to `status ≠ CANCELLED`, and a globally unique `idempotencyKey`.  The
insert inside the route's transaction raises Prisma error P2002 exactly
when one of them is violated. -/
def insertConflict (db : DB) (userId : String) (startTime endTime : Int)
    (key : String) : Bool :=
  db.bookings.any fun b =>
    (b.userId == userId && decide (b.startTime = startTime)
      && decide (b.endTime = endTime) && !(b.status == BookingStatus.CANCELLED))
    || b.idempotencyKey == some key

/-- The POST /bookings handler of `src/app/api/bookings/route.ts`, with the
request-independent effects as explicit oracles: `rateLimitOk` is the rate
limiter verdict, `parseOk` the zod validation verdict, `freshUid` the
`uuidv4()` value, `available` the `isSlotAvailable` result, and
`calendarResult` the outcome of `createCalendarEvent`
(`some (googleEventId, meetingUrl)` on success, `none` when it throws —
the route swallows that error).  `emailOk` is the email outcome; the route
swallows email errors too, so it influences nothing.  Returns the response
and the new database state. -/
def postBooking (db : DB) (req : BookingRequest)
    (rateLimitOk parseOk : Bool) (hashString : String → String) (nowMs : Int)
    (freshUid : String) (available : Bool)
    (calendarResult : Option (String × Option String)) (emailOk : Bool) :
    PostResponse × DB :=
  if !rateLimitOk then (PostResponse.rateLimited, db)
  else if !parseOk then (PostResponse.invalidInput, db)
  else
    let idempotencyKey := postKey req hashString nowMs
    match db.bookings.find? fun b => b.idempotencyKey == some idempotencyKey with
    | some existingBooking =>
      (PostResponse.okExisting existingBooking.uid existingBooking.startTime
        existingBooking.endTime existingBooking.meetingUrl, db)
    | none =>
      match db.eventTypes.find? fun et => et.id == req.eventTypeId with
      | none => (PostResponse.notFound, db)
      | some eventType =>
        if !eventType.isActive then (PostResponse.notFound, db)
        else
          let startTime := req.startTime
          let endTime := startTime + eventType.duration
          if !available then (PostResponse.slotTaken, db)
          else if !eventType.hasDestinationCalendar then (PostResponse.noDestination, db)
          else if insertConflict db eventType.userId startTime endTime idempotencyKey then
            (PostResponse.slotTaken, db)
          else
            let newBooking : Booking :=
              { uid := freshUid, userId := eventType.userId, startTime := startTime,
                endTime := endTime,
                status := if eventType.requiresConfirmation then BookingStatus.PENDING
                  else BookingStatus.CONFIRMED,
                idempotencyKey := some idempotencyKey, meetingUrl := none,
                googleEventId := none }
            let db1 : DB := { db with bookings := db.bookings ++ [newBooking] }
            match calendarResult with
            | some result =>
              let db2 : DB := { db1 with bookings := db1.bookings.map fun b =>
                if b.uid == freshUid then
                  { b with googleEventId := some result.1, meetingUrl := result.2 }
                else b }
              (PostResponse.created newBooking.uid newBooking.startTime newBooking.endTime
                result.2, db2)
            | none =>
              (PostResponse.created newBooking.uid newBooking.startTime newBooking.endTime
                none, db1)

/-- A connected Google account row, restricted to what `getCompositeBusy`
and the token-refresh step of `getAuthenticatedClient` read or write
(`expiresAt` in milliseconds, as `Date.getTime()`). -/
structure ConnectedAccount where
  id : String
  isValid : Bool
  expiresAt : Int
  deriving Repr, DecidableEq

/-- A calendar row, restricted to what `getCompositeBusy` reads. -/
structure Calendar where
  userId : String
  connectedAccountId : String
  googleCalendarId : String
  isSelected : Bool
  deriving Repr, DecidableEq

/-- One step of the `Map`-based grouping loop in `getCompositeBusy`:
append the calendar id to an existing group for the account, or start a
new group (insertion order preserved, as a JS `Map` does). -/
def addToGroup (groups : List (String × List String)) (accountId calId : String) :
    List (String × List String) :=
  if groups.any fun g => g.1 == accountId then
    groups.map fun g => if g.1 == accountId then (g.1, g.2 ++ [calId]) else g
  else groups ++ [(accountId, [calId])]

/-- The calendars-by-account grouping of `getCompositeBusy`. -/
def groupByAccount (cals : List Calendar) : List (String × List String) :=
  cals.foldl (fun gs cal => addToGroup gs cal.connectedAccountId cal.googleCalendarId) []

/-- `getCompositeBusy` from `src/lib/google-calendar.ts`: select the
host's calendars that are `isSelected` and belong to a valid connected
account, group them by account, fetch free/busy per account (`fetch` is
the per-account `getFreeBusy` outcome; `.catch` turns an error into an
empty list and logs the failed account), and flatten.  The second
component returns the accounts whose fetch failed — the `console.error`
soft-failure channel. -/
def getCompositeBusy (accounts : List ConnectedAccount) (calendars : List Calendar)
    (userId : String)
    (fetch : String → List String → Except String (List BusyBlock)) :
    List BusyBlock × List String :=
  let selected := calendars.filter fun cal =>
    cal.userId == userId && cal.isSelected
      && accounts.any fun a => a.id == cal.connectedAccountId && a.isValid
  let groups := groupByAccount selected
  let results := groups.map fun g =>
    match fetch g.1 g.2 with
    | Except.ok blocks => (blocks, (none : Option String))
    | Except.error _ => ([], some g.1)
  ((results.map Prod.fst).flatten, results.filterMap Prod.snd)

/-- The token-refresh step of `getAuthenticatedClient`: when the stored
access token expires within a 60-second skew of `nowMs`, a refresh is
attempted (`refreshOk` is its outcome); on failure the account row is
updated to `isValid := false` and the function throws.  Returns the stored
account row after the step and whether it threw. -/
def refreshStep (account : ConnectedAccount) (nowMs : Int) (refreshOk : Bool) :
    ConnectedAccount × Bool :=
  if account.expiresAt < nowMs + 60000 && !refreshOk then
    ({ account with isValid := false }, true)
  else (account, false)

/-- Fixture: concrete busy blocks (two overlapping, one separate). -/
def wBlocksC3 : List BusyBlock :=
  [BusyBlock.mk 0 10 "a", BusyBlock.mk 5 15 "b", BusyBlock.mk 20 25 "c"]

/-- Fixture: a concrete event-type configuration. -/
def wCfgC5 : EventTypeConfig :=
  { userId := "host", duration := 30, bufferBefore := 0, bufferAfter := 0,
    minimumNotice := 0, schedulingWindow := 1, slotInterval := 30,
    workingHours := [{ day := 4, start := (9, 0), stop := (17, 0) }],
    treatTentativeAsBusy := true, includeAllDayEvents := true, timezone := 0 }

/-- Fixture: an active event type with a destination calendar. -/
def wEventType : EventType :=
  { id := "e1", userId := "host", duration := 30, requiresConfirmation := false,
    isActive := true, hasDestinationCalendar := true }

/-- Fixture: a database with no bookings and the one event type. -/
def wDB : DB := { bookings := [], eventTypes := [wEventType] }

/-- Fixture: a validated booking request carrying idempotency key "k1". -/
def wReq : BookingRequest :=
  { eventTypeId := "e1", startTimeStr := "2024-01-15T16:00:00.000Z", startTime := 100,
    timezone := "UTC", attendeeName := "Guest", attendeeEmail := "guest@example.com",
    idempotencyKey := some "k1" }

/-- Fixture: a stored booking holding idempotency key "k1". -/
def wPrior : Booking :=
  { uid := "pb", userId := "host", startTime := 50, endTime := 80,
    status := BookingStatus.CONFIRMED, idempotencyKey := some "k1",
    meetingUrl := some "https://meet.example/x", googleEventId := none }

/-- Fixture: a database already holding `wPrior`. -/
def wDB6 : DB := { bookings := [wPrior], eventTypes := [wEventType] }

/-- Fixture: the same request without an idempotency key. -/
def wReqNoKey : BookingRequest := { wReq with idempotencyKey := none }

/-- Fixture: the stored booking, since cancelled. -/
def wPriorCancelled : Booking := { wPrior with status := BookingStatus.CANCELLED }

/-- Fixture: the event type, since deactivated. -/
def wEventTypeInactive : EventType := { wEventType with isActive := false }

/-- Fixture: a database with the cancelled prior booking and only the
deactivated event type. -/
def wDB10 : DB := { bookings := [wPriorCancelled], eventTypes := [wEventTypeInactive] }

/-- Fixture: a CONFIRMED local booking on `[0, 30)`. -/
def wBookingC7 : Booking :=
  { uid := "b1", userId := "host", startTime := 0, endTime := 30,
    status := BookingStatus.CONFIRMED, idempotencyKey := none,
    meetingUrl := none, googleEventId := none }

/-- Fixture: a configuration whose working hours cover `[0, 30)`. -/
def wCfgC7 : EventTypeConfig :=
  { userId := "host", duration := 30, bufferBefore := 0, bufferAfter := 0,
    minimumNotice := 0, schedulingWindow := 30, slotInterval := 30,
    workingHours := [{ day := 4, start := (0, 0), stop := (12, 0) }],
    treatTentativeAsBusy := true, includeAllDayEvents := true, timezone := 0 }

/-- Fixture: two valid connected accounts. -/
def wAccounts : List ConnectedAccount :=
  [{ id := "A", isValid := true, expiresAt := 0 },
   { id := "B", isValid := true, expiresAt := 0 }]

/-- Fixture: one selected calendar on each account. -/
def wCalendars : List Calendar :=
  [{ userId := "host", connectedAccountId := "A", googleCalendarId := "a1",
     isSelected := true },
   { userId := "host", connectedAccountId := "B", googleCalendarId := "b1",
     isSelected := true }]

/-- Fixture: a free/busy fetch failing for account "A". -/
def wFetchFail : String → List String → Except String (List BusyBlock) :=
  fun aid _ => if aid = "A" then Except.error "network" else Except.ok []

/-- Fixture: a free/busy fetch succeeding everywhere with no busy blocks. -/
def wFetchOk : String → List String → Except String (List BusyBlock) :=
  fun _ _ => Except.ok []

theorem covers_cons {b : BusyBlock} {bs : List BusyBlock} {t : Int} :
    covers (b :: bs) t ↔ inBlock b t ∨ covers bs t := by
  simp [covers]

theorem sortByStart_perm (blocks : List BusyBlock) : (sortByStart blocks).Perm blocks :=
  List.mergeSort_perm blocks _

theorem sortByStart_pairwise (blocks : List BusyBlock) :
    (sortByStart blocks).Pairwise fun a b => a.start ≤ b.start := by
  have h := @List.sorted_mergeSort BusyBlock
    (fun a b : BusyBlock => decide (a.start ≤ b.start))
    (fun a b c hab hbc => by
      simp only [decide_eq_true_eq] at hab hbc ⊢; omega)
    (fun a b => by
      simp only [Bool.or_eq_true, decide_eq_true_eq]; omega) blocks
  exact h.imp (by simp)

theorem mem_mergeLoop_start {last : BusyBlock} {rest : List BusyBlock}
    (hs : (last :: rest).Pairwise fun a b => a.start ≤ b.start) :
    ∀ m ∈ mergeLoop last rest, last.start ≤ m.start := by
  induction rest generalizing last with
  | nil =>
    intro m hm
    simp only [mergeLoop, List.mem_singleton] at hm
    exact hm ▸ le_refl _
  | cons current rest ih =>
    rw [List.pairwise_cons] at hs
    obtain ⟨hhead, htail⟩ := hs
    intro m hm
    rw [mergeLoop] at hm
    by_cases hc : current.start ≤ last.stop
    · rw [if_pos hc] at hm
      have hs' : ({ last with stop := max last.stop current.stop } :: rest).Pairwise
          fun a b => a.start ≤ b.start := by
        rw [List.pairwise_cons]
        exact ⟨fun b hb => hhead b (List.mem_cons_of_mem _ hb), htail.of_cons⟩
      exact ih hs' m hm
    · rw [if_neg hc] at hm
      rcases List.mem_cons.mp hm with rfl | hm'
      · exact le_refl _
      · exact le_trans (hhead current (by simp)) (ih htail m hm')

theorem mem_mergeLoop_pos {last : BusyBlock} {rest : List BusyBlock}
    (hpos : ∀ b ∈ last :: rest, b.start < b.stop) :
    ∀ m ∈ mergeLoop last rest, m.start < m.stop := by
  induction rest generalizing last with
  | nil =>
    intro m hm
    simp only [mergeLoop, List.mem_singleton] at hm
    exact hm ▸ hpos last (by simp)
  | cons current rest ih =>
    intro m hm
    rw [mergeLoop] at hm
    by_cases hc : current.start ≤ last.stop
    · rw [if_pos hc] at hm
      refine ih (fun b hb => ?_) m hm
      rcases List.mem_cons.mp hb with rfl | hb'
      · have h1 := hpos last (by simp)
        simp only []
        omega
      · exact hpos b (by simp [hb'])
    · rw [if_neg hc] at hm
      rcases List.mem_cons.mp hm with rfl | hm'
      · exact hpos m (by simp)
      · refine ih (fun b hb => hpos b ?_) m hm'
        rcases List.mem_cons.mp hb with rfl | hb'
        · simp
        · simp [hb']

theorem covers_mergeLoop {last : BusyBlock} {rest : List BusyBlock}
    (hs : (last :: rest).Pairwise fun a b => a.start ≤ b.start) (t : Int) :
    covers (mergeLoop last rest) t ↔ inBlock last t ∨ covers rest t := by
  induction rest generalizing last with
  | nil => simp [mergeLoop, covers]
  | cons current rest ih =>
    rw [List.pairwise_cons] at hs
    obtain ⟨hhead, htail⟩ := hs
    rw [mergeLoop]
    by_cases hc : current.start ≤ last.stop
    · rw [if_pos hc]
      have hs' : ({ last with stop := max last.stop current.stop } :: rest).Pairwise
          fun a b => a.start ≤ b.start := by
        rw [List.pairwise_cons]
        exact ⟨fun b hb => hhead b (List.mem_cons_of_mem _ hb), htail.of_cons⟩
      rw [ih hs', covers_cons]
      have hla : last.start ≤ current.start := hhead current (by simp)
      have habs : inBlock { last with stop := max last.stop current.stop } t ↔
          inBlock last t ∨ inBlock current t := by
        unfold inBlock
        simp only []
        omega
      rw [habs]
      tauto
    · rw [if_neg hc, covers_cons, ih htail, covers_cons]

theorem pairwise_mergeLoop {last : BusyBlock} {rest : List BusyBlock}
    (hs : (last :: rest).Pairwise fun a b => a.start ≤ b.start) :
    (mergeLoop last rest).Pairwise fun a b => a.stop < b.start := by
  induction rest generalizing last with
  | nil => simp [mergeLoop]
  | cons current rest ih =>
    rw [List.pairwise_cons] at hs
    obtain ⟨hhead, htail⟩ := hs
    rw [mergeLoop]
    by_cases hc : current.start ≤ last.stop
    · rw [if_pos hc]
      refine ih ?_
      rw [List.pairwise_cons]
      exact ⟨fun b hb => hhead b (List.mem_cons_of_mem _ hb), htail.of_cons⟩
    · rw [if_neg hc, List.pairwise_cons]
      refine ⟨fun m hm => ?_, ih htail⟩
      have h1 := mem_mergeLoop_start htail m hm
      omega

theorem mergeBusyBlocks_pairwise (blocks : List BusyBlock) :
    (mergeBusyBlocks blocks).Pairwise fun a b => a.stop < b.start := by
  unfold mergeBusyBlocks
  cases h : sortByStart blocks with
  | nil => simp
  | cons b rest => exact pairwise_mergeLoop (h ▸ sortByStart_pairwise blocks)

theorem mergeBusyBlocks_covers (blocks : List BusyBlock) (t : Int) :
    covers (mergeBusyBlocks blocks) t ↔ covers blocks t := by
  unfold mergeBusyBlocks
  have hperm := sortByStart_perm blocks
  cases h : sortByStart blocks with
  | nil =>
    rw [h] at hperm
    have : blocks = [] := hperm.symm.eq_nil
    simp [this]
  | cons b rest =>
    rw [h] at hperm
    rw [covers_mergeLoop (h ▸ sortByStart_pairwise blocks), ← covers_cons]
    unfold covers
    exact exists_congr fun m => and_congr_left fun _ => hperm.mem_iff

theorem mergeBusyBlocks_mem_pos {blocks : List BusyBlock}
    (hpos : ∀ b ∈ blocks, b.start < b.stop) :
    ∀ m ∈ mergeBusyBlocks blocks, m.start < m.stop := by
  unfold mergeBusyBlocks
  have hperm := sortByStart_perm blocks
  cases h : sortByStart blocks with
  | nil => simp
  | cons b rest =>
    rw [h] at hperm
    exact mem_mergeLoop_pos fun c hc => hpos c (hperm.mem_iff.mp hc)

theorem merged_sep {blocks : List BusyBlock} {x y : BusyBlock}
    (hx : x ∈ mergeBusyBlocks blocks) (hy : y ∈ mergeBusyBlocks blocks) :
    x = y ∨ x.stop < y.start ∨ y.stop < x.start := by
  by_cases hxy : x = y
  · exact Or.inl hxy
  · have hpw : (mergeBusyBlocks blocks).Pairwise
        fun a b => a.stop < b.start ∨ b.stop < a.start :=
      (mergeBusyBlocks_pairwise blocks).imp Or.inl
    have hsym : Symmetric fun a b : BusyBlock => a.stop < b.start ∨ b.stop < a.start :=
      fun a b hab => hab.elim Or.inr Or.inl
    exact Or.inr (List.Pairwise.forall hsym hpw hx hy hxy)

theorem input_subset_merged {blocks : List BusyBlock}
    (hpos : ∀ b ∈ blocks, b.start < b.stop) :
    ∀ c ∈ blocks, ∃ m ∈ mergeBusyBlocks blocks, m.start ≤ c.start ∧ c.stop ≤ m.stop := by
  intro c hc
  have hcstart : covers blocks c.start := ⟨c, hc, le_refl _, hpos c hc⟩
  obtain ⟨m, hm, hm1, hm2⟩ := (mergeBusyBlocks_covers blocks c.start).mpr hcstart
  refine ⟨m, hm, hm1, ?_⟩
  by_contra hlt
  push_neg at hlt
  have hcov2 : covers blocks m.stop := ⟨c, hc, by omega, hlt⟩
  obtain ⟨m2, hm2', h21, h22⟩ := (mergeBusyBlocks_covers blocks m.stop).mpr hcov2
  rcases merged_sep hm hm2' with h | h | h
  · subst h; omega
  · omega
  · omega

/-- C3: for every finite list of busy blocks each with `start < end`,
`mergeBusyBlocks` returns a list sorted by start ascending, with pairwise
disjoint half-open intervals, whose union equals the union of the inputs,
and in which any two inputs with `a.end ≥ b.start` (adjacency included)
end up inside a single output interval covering
`[min(a.start, b.start), max(a.end, b.end))`. -/
theorem mergeBusyBlocks_correct (blocks : List BusyBlock)
    (hpos : ∀ b ∈ blocks, b.start < b.stop) :
    ((mergeBusyBlocks blocks).Pairwise fun a b => a.start ≤ b.start)
    ∧ ((mergeBusyBlocks blocks).Pairwise fun a b => ∀ t : Int,
        ¬(inBlock a t ∧ inBlock b t))
    ∧ (∀ t : Int, covers (mergeBusyBlocks blocks) t ↔ covers blocks t)
    ∧ (∀ a ∈ blocks, ∀ b ∈ blocks, a.start ≤ b.start → b.start ≤ a.stop →
        ∃ m ∈ mergeBusyBlocks blocks,
          m.start ≤ min a.start b.start ∧ max a.stop b.stop ≤ m.stop) := by
  refine ⟨?_, ?_, mergeBusyBlocks_covers blocks, ?_⟩
  · have hmempos := mergeBusyBlocks_mem_pos hpos
    refine List.Pairwise.imp_of_mem ?_ (mergeBusyBlocks_pairwise blocks)
    intro a b hma _ hr
    have := hmempos a hma
    omega
  · refine (mergeBusyBlocks_pairwise blocks).imp ?_
    intro a b h t
    unfold inBlock
    omega
  · intro a ha b hb hab hba
    obtain ⟨m1, hm1, h11, h12⟩ := input_subset_merged hpos a ha
    obtain ⟨m2, hm2, h21, h22⟩ := input_subset_merged hpos b hb
    have hbpos := hpos b hb
    have heq : m1 = m2 := by
      rcases merged_sep hm1 hm2 with h | h | h
      · exact h
      · omega
      · omega
    subst heq
    exact ⟨m1, hm1, by omega, by omega⟩

/-- C4: the buffered-overlap test `isSlotBusy` returns true iff the
buffer-expanded half-open slot interval has a common point with some busy
block; with zero buffers, a block that merely abuts the slot (shared
endpoint) does not conflict. -/
theorem isSlotBusy_iff_intersects (slotStart slotEnd : Int) (blocks : List BusyBlock)
    (bufferBefore bufferAfter : Int)
    (hbb : 0 ≤ bufferBefore) (hba : 0 ≤ bufferAfter) (hslot : slotStart < slotEnd)
    (hpos : ∀ b ∈ blocks, b.start < b.stop) :
    (isSlotBusy slotStart slotEnd blocks bufferBefore bufferAfter = true ↔
      ∃ b ∈ blocks,
        intersects (slotStart - bufferBefore) (slotEnd + bufferAfter) b.start b.stop)
    ∧ (∀ b : BusyBlock, b.stop = slotStart ∨ b.start = slotEnd →
        isSlotBusy slotStart slotEnd [b] 0 0 = false) := by
  constructor
  · unfold isSlotBusy areIntervalsOverlapping
    rw [List.any_eq_true]
    constructor
    · rintro ⟨b, hbm, hb2⟩
      simp only [Bool.and_eq_true, decide_eq_true_eq] at hb2
      have := hpos b hbm
      exact ⟨b, hbm, ⟨max (slotStart - bufferBefore) b.start, by omega⟩⟩
    · rintro ⟨b, hbm, t, ht⟩
      refine ⟨b, hbm, ?_⟩
      simp only [Bool.and_eq_true, decide_eq_true_eq]
      omega
  · intro b hadj
    unfold isSlotBusy areIntervalsOverlapping
    simp only [List.any_cons, List.any_nil, Bool.or_false, Bool.and_eq_false_iff,
      decide_eq_false_iff_not, not_lt]
    omega

theorem effectiveStartDate_eq (minBookingTime startDate : Int) :
    effectiveStartDate minBookingTime startDate = max startDate minBookingTime := by
  unfold effectiveStartDate
  split <;> omega

theorem effectiveEndDate_eq (maxBookingDate endDate : Int) :
    effectiveEndDate maxBookingDate endDate = min endDate maxBookingDate := by
  unfold effectiveEndDate
  split <;> omega

theorem mem_dayLoop_bounds (serverOff : Int) (cfg : EventTypeConfig)
    (merged : List BusyBlock) (minBookingTime maxBookingDate : Int)
    (hd : 0 < cfg.duration) (hi : 0 < cfg.slotInterval) (endExcl : Int) :
    ∀ currentDate, ∀ s ∈ dayLoop serverOff cfg merged minBookingTime maxBookingDate
        hd hi endExcl currentDate,
      minBookingTime ≤ s.start ∧ s.start ≤ maxBookingDate := by
  have key : ∀ n : ℕ, ∀ currentDate, (endExcl - currentDate).toNat = n →
      ∀ s ∈ dayLoop serverOff cfg merged minBookingTime maxBookingDate
          hd hi endExcl currentDate,
        minBookingTime ≤ s.start ∧ s.start ≤ maxBookingDate := by
    intro n
    induction n using Nat.strong_induction_on with
    | _ n ih =>
      intro currentDate hn s hs
      rw [dayLoop] at hs
      split at hs
      case isTrue hlt =>
        rcases List.mem_append.mp hs with hmem | hmem
        · obtain ⟨slot, _, heq⟩ := List.mem_filterMap.mp hmem
          split at heq
          · exact absurd heq (by simp)
          · split at heq
            · exact absurd heq (by simp)
            · split at heq
              · exact absurd heq (by simp)
              · obtain rfl := Option.some.inj heq
                simp only []
                omega
        · exact ih ((endExcl - (currentDate + 1440)).toNat) (by omega)
            (currentDate + 1440) rfl s hmem
      case isFalse => exact absurd hs (by simp)
  intro currentDate
  exact key ((endExcl - currentDate).toNat) currentDate rfl

/-- C5: `generateAvailableSlots` works inside the effective window
`[max(rangeStart, now + minimumNotice), min(rangeEnd, now + schedulingWindow
days)]`: it returns the empty list whenever that window is empty, and every
returned slot starts no earlier than `now + minimumNotice` and no later than
`now + schedulingWindow` days. -/
theorem generateAvailableSlots_window (serverOff : Int) (cfg : EventTypeConfig)
    (world : List BusyBlock) (dbBookings : List Booking)
    (now startDate endDate : Int) (hd : 0 < cfg.duration) (hi : 0 < cfg.slotInterval) :
    (min endDate (now + 1440 * cfg.schedulingWindow) <
        max startDate (now + cfg.minimumNotice) →
      generateAvailableSlots serverOff cfg world dbBookings now startDate endDate hd hi = [])
    ∧ ∀ s ∈ generateAvailableSlots serverOff cfg world dbBookings now startDate endDate hd hi,
        now + cfg.minimumNotice ≤ s.start ∧ s.start ≤ now + 1440 * cfg.schedulingWindow := by
  have hc := effectiveStartDate_eq (now + cfg.minimumNotice) startDate
  have hc' := effectiveEndDate_eq (now + 1440 * cfg.schedulingWindow) endDate
  constructor
  · intro hlt
    simp only [generateAvailableSlots]
    rw [if_pos (by omega)]
  · intro s hs
    simp only [generateAvailableSlots] at hs
    by_cases hlt : effectiveEndDate (now + 1440 * cfg.schedulingWindow) endDate <
        effectiveStartDate (now + cfg.minimumNotice) startDate
    · rw [if_pos hlt] at hs
      exact absurd hs (by simp)
    · rw [if_neg hlt] at hs
      exact mem_dayLoop_bounds serverOff cfg _ _ _ hd hi _ _ s hs

/-- C7 (amended): whenever `[startTime, endTime)` overlaps a local booking
of the host whose status is PENDING or CONFIRMED, `isSlotAvailable`
returns false.  (The source's `findFirst` filters
`status ∈ {CONFIRMED, PENDING}`, so a COMPLETED booking does not block.) -/
theorem isSlotAvailable_false_of_overlap (serverOff : Int) (cfg : EventTypeConfig)
    (world : List BusyBlock) (dbBookings : List Booking)
    (now startTime endTime : Int) (b : Booking)
    (hmem : b ∈ dbBookings) (huser : b.userId = cfg.userId)
    (hstatus : b.status = BookingStatus.PENDING ∨ b.status = BookingStatus.CONFIRMED)
    (hov1 : b.startTime < endTime) (hov2 : startTime < b.endTime) :
    isSlotAvailable serverOff cfg world dbBookings now startTime endTime = false := by
  have hfind : (dbBookings.find? fun bk =>
      bk.userId == cfg.userId
        && (bk.status == BookingStatus.CONFIRMED || bk.status == BookingStatus.PENDING)
        && ((decide (bk.startTime ≤ startTime) && decide (startTime < bk.endTime))
          || (decide (bk.startTime < endTime) && decide (endTime ≤ bk.endTime))
          || (decide (startTime ≤ bk.startTime) && decide (bk.endTime ≤ endTime)))).isSome := by
    rw [List.find?_isSome]
    refine ⟨b, hmem, ?_⟩
    simp only [Bool.and_eq_true, Bool.or_eq_true, beq_iff_eq, decide_eq_true_eq]
    refine ⟨⟨huser, ?_⟩, by omega⟩
    rcases hstatus with h | h <;> rw [h] <;> decide
  simp only [isSlotAvailable]
  split
  · rfl
  · split
    · rfl
    · split
      · rfl
      · split
        · rfl
        · split
          · rfl
          · rename_i hnone
            rw [hnone] at hfind
            exact absurd hfind (by simp)

/-- C7 counterexample to the claim as stated: a COMPLETED booking overlaps
the instant `[0, 30)` of its own host, yet `isSlotAvailable` returns true
— COMPLETED is not treated as blocking, only PENDING and CONFIRMED are. -/
theorem isSlotAvailable_completed_not_blocking :
    (BookingStatus.COMPLETED ≠ BookingStatus.CANCELLED)
    ∧ isSlotAvailable 0
        { userId := "host", duration := 30, bufferBefore := 0, bufferAfter := 0,
          minimumNotice := 0, schedulingWindow := 30, slotInterval := 30,
          workingHours := [{ day := 4, start := (0, 0), stop := (12, 0) }],
          treatTentativeAsBusy := true, includeAllDayEvents := true, timezone := 0 }
        []
        [{ uid := "b1", userId := "host", startTime := 0, endTime := 30,
           status := BookingStatus.COMPLETED, idempotencyKey := none,
           meetingUrl := none, googleEventId := none }]
        0 0 30 = true := by
  constructor
  · decide
  · decide

/-- C2 fails on the code: with a CONFIRMED booking `[-30, 30)` straddling
the start of the effective window `[0, 60]`, `generateAvailableSlots`
still returns the slot `[0, 30)` — its booking query keeps only bookings
contained in the window (`startTime ≥ effectiveStartDate`), so the
straddling booking is missed — while `isSlotAvailable` at the same clock
and snapshot returns false for that very slot. -/
theorem generateAvailableSlots_misses_straddling_booking :
    generateAvailableSlots 0
      { userId := "host", duration := 30, bufferBefore := 0, bufferAfter := 0,
        minimumNotice := 0, schedulingWindow := 1, slotInterval := 30,
        workingHours := [{ day := 4, start := (0, 0), stop := (1, 0) }],
        treatTentativeAsBusy := true, includeAllDayEvents := true, timezone := 0 }
      []
      [{ uid := "b1", userId := "host", startTime := -30, endTime := 30,
         status := BookingStatus.CONFIRMED, idempotencyKey := none,
         meetingUrl := none, googleEventId := none }]
      0 0 60 (by decide) (by decide)
      = [{ start := 0, stop := 30, available := true },
         { start := 30, stop := 60, available := true }]
    ∧ isSlotAvailable 0
      { userId := "host", duration := 30, bufferBefore := 0, bufferAfter := 0,
        minimumNotice := 0, schedulingWindow := 1, slotInterval := 30,
        workingHours := [{ day := 4, start := (0, 0), stop := (1, 0) }],
        treatTentativeAsBusy := true, includeAllDayEvents := true, timezone := 0 }
      []
      [{ uid := "b1", userId := "host", startTime := -30, endTime := 30,
         status := BookingStatus.CONFIRMED, idempotencyKey := none,
         meetingUrl := none, googleEventId := none }]
      0 0 30 = false := by
  constructor
  · unfold generateAvailableSlots
    norm_num [effectiveStartDate, effectiveEndDate, compositeBusy, mergeBusyBlocks,
      sortByStart, startOfDay, List.filter]
    rw [dayLoop]
    norm_num [generateDayCandidateSlots, getDay, startOfDay, toZonedTime, fromZonedTime,
      List.find?]
    rw [slotLoop]
    norm_num
    rw [slotLoop]
    norm_num
    rw [slotLoop]
    norm_num [isSlotBusy, areIntervalsOverlapping]
    rw [dayLoop]
    norm_num [List.filterMap]
  · decide

/-- C1: past rate limiting, validation, an idempotency-lookup miss and the
event-type check, the commit responds SlotTaken (409) exactly when the
pre-commit availability check returned false or the insert is rejected by
the uniqueness constraint (P2002, attempted only when a destination
calendar exists); in both cases the database is left unchanged, so no
booking row is durably created by the request. -/
theorem postBooking_slotTaken_iff (db : DB) (req : BookingRequest)
    (hashString : String → String) (nowMs : Int) (freshUid : String)
    (available : Bool) (calendarResult : Option (String × Option String))
    (emailOk : Bool) (eventType : EventType)
    (hidem : db.bookings.find? (fun b =>
      b.idempotencyKey == some (postKey req hashString nowMs)) = none)
    (het : db.eventTypes.find? (fun et => et.id == req.eventTypeId) = some eventType)
    (hactive : eventType.isActive = true) :
    ((postBooking db req true true hashString nowMs freshUid available
        calendarResult emailOk).1 = PostResponse.slotTaken ↔
      (available = false ∨ (eventType.hasDestinationCalendar = true ∧
        insertConflict db eventType.userId req.startTime
          (req.startTime + eventType.duration) (postKey req hashString nowMs) = true)))
    ∧ ((postBooking db req true true hashString nowMs freshUid available
        calendarResult emailOk).1 = PostResponse.slotTaken →
      (postBooking db req true true hashString nowMs freshUid available
        calendarResult emailOk).2 = db) := by
  simp only [postBooking, hidem, het, hactive, Bool.not_true, Bool.not_false,
    if_false, if_true]
  cases available with
  | false => simp
  | true =>
    simp only [Bool.not_true, if_false, Bool.false_eq_true, false_or]
    by_cases hdest : eventType.hasDestinationCalendar
    · simp only [hdest, Bool.not_true, if_false]
      by_cases hconf : insertConflict db eventType.userId req.startTime
          (req.startTime + eventType.duration) (postKey req hashString nowMs)
      · simp [hconf]
      · simp only [hconf, if_false, Bool.false_eq_true]
        cases calendarResult <;> simp
    · simp only [Bool.not_eq_true] at hdest
      simp [hdest]

/-- C6: a commit whose idempotency key matches a stored booking returns
that booking's uid, startTime, endTime and meetingUrl and leaves the
database unchanged (so any number of repetitions yields the same response
and at most the one existing row); and when no key is supplied the key
used is `hashString` of the event type id, the requested start time
string, the guest email and the wall-clock milliseconds. -/
theorem postBooking_idempotent_replay (db : DB) (req : BookingRequest)
    (hashString : String → String) (nowMs : Int) (freshUid : String)
    (available : Bool) (calendarResult : Option (String × Option String))
    (emailOk : Bool) (prior : Booking) :
    (db.bookings.find? (fun b =>
        b.idempotencyKey == some (postKey req hashString nowMs)) = some prior →
      postBooking db req true true hashString nowMs freshUid available
          calendarResult emailOk =
        (PostResponse.okExisting prior.uid prior.startTime prior.endTime
          prior.meetingUrl, db))
    ∧ (req.idempotencyKey = none →
      postKey req hashString nowMs =
        hashString (req.eventTypeId ++ ":" ++ req.startTimeStr ++ ":"
          ++ req.attendeeEmail ++ ":" ++ toString nowMs)) := by
  constructor
  · intro hfind
    simp only [postBooking, hfind, Bool.not_true, Bool.false_eq_true, if_false]
  · intro hnone
    simp [postKey, hnone]

/-- C8: once the insert has succeeded, the response is 201 with the new
booking's uid, startTime and endTime for every outcome of the calendar
event creation and of the emails, and the stored row keeps status
CONFIRMED (or PENDING when confirmation is required) — external failures
roll nothing back. -/
theorem postBooking_post_commit_isolation (db : DB) (req : BookingRequest)
    (hashString : String → String) (nowMs : Int) (freshUid : String)
    (calendarResult : Option (String × Option String)) (emailOk : Bool)
    (eventType : EventType)
    (hidem : db.bookings.find? (fun b =>
      b.idempotencyKey == some (postKey req hashString nowMs)) = none)
    (het : db.eventTypes.find? (fun et => et.id == req.eventTypeId) = some eventType)
    (hactive : eventType.isActive = true)
    (hdest : eventType.hasDestinationCalendar = true)
    (hnoconf : insertConflict db eventType.userId req.startTime
      (req.startTime + eventType.duration) (postKey req hashString nowMs) = false) :
    (∃ url, (postBooking db req true true hashString nowMs freshUid true
        calendarResult emailOk).1 =
      PostResponse.created freshUid req.startTime (req.startTime + eventType.duration) url)
    ∧ ∃ b ∈ (postBooking db req true true hashString nowMs freshUid true
        calendarResult emailOk).2.bookings,
        b.uid = freshUid ∧ b.startTime = req.startTime
        ∧ b.endTime = req.startTime + eventType.duration
        ∧ b.status = (if eventType.requiresConfirmation then BookingStatus.PENDING
            else BookingStatus.CONFIRMED) := by
  simp only [postBooking, hidem, het, hactive, hdest, hnoconf, Bool.not_true,
    Bool.not_false, if_false, if_true]
  cases calendarResult with
  | none =>
    refine ⟨⟨none, rfl⟩, ?_⟩
    refine ⟨_, List.mem_append_right _ (List.mem_singleton.mpr rfl), ?_⟩
    simp
  | some result =>
    refine ⟨⟨result.2, rfl⟩, ?_⟩
    refine ⟨_, List.mem_map_of_mem _
      (List.mem_append_right _ (List.mem_singleton.mpr rfl)), ?_⟩
    simp

/-- C10: the idempotent replay happens before the event-type load, the
active check and any availability re-validation: even when the matched
prior booking is CANCELLED, every event type carrying the requested id is
inactive, and the availability verdict would be negative, the commit still
returns the prior booking as a success and creates no new row. -/
theorem postBooking_replay_before_checks (db : DB) (req : BookingRequest)
    (hashString : String → String) (nowMs : Int) (freshUid : String)
    (calendarResult : Option (String × Option String)) (emailOk : Bool)
    (prior : Booking)
    (hfind : db.bookings.find? (fun b =>
      b.idempotencyKey == some (postKey req hashString nowMs)) = some prior)
    (hcancelled : prior.status = BookingStatus.CANCELLED)
    (hinactive : ∀ et ∈ db.eventTypes, et.id = req.eventTypeId → et.isActive = false) :
    postBooking db req true true hashString nowMs freshUid false
        calendarResult emailOk =
      (PostResponse.okExisting prior.uid prior.startTime prior.endTime
        prior.meetingUrl, db) := by
  simp only [postBooking, hfind, Bool.not_true, Bool.false_eq_true, if_false]

theorem mem_addToGroup_key {gs : List (String × List String)} {aid cid k : String}
    (hk : k ∈ (addToGroup gs aid cid).map Prod.fst) :
    k ∈ gs.map Prod.fst ∨ k = aid := by
  unfold addToGroup at hk
  split at hk
  · left
    rw [List.map_map] at hk
    obtain ⟨g, hg, hfst⟩ := List.mem_map.mp hk
    refine List.mem_map.mpr ⟨g, hg, ?_⟩
    rw [← hfst]
    simp only [Function.comp_apply]
    split <;> rfl
  · rw [List.map_append] at hk
    rcases List.mem_append.mp hk with h | h
    · exact Or.inl h
    · right
      simpa using h


theorem mem_groupByAccount_key :
    ∀ (cals : List Calendar) (gs : List (String × List String))
      (g : String × List String),
      g ∈ cals.foldl (fun acc cal =>
        addToGroup acc cal.connectedAccountId cal.googleCalendarId) gs →
      g.1 ∈ gs.map Prod.fst ∨ ∃ cal ∈ cals, cal.connectedAccountId = g.1 := by
  intro cals
  induction cals with
  | nil =>
    intro gs g hg
    simp only [List.foldl_nil] at hg
    exact Or.inl (List.mem_map_of_mem _ hg)
  | cons c cals ih =>
    intro gs g hg
    simp only [List.foldl_cons] at hg
    rcases ih _ g hg with hkey | ⟨cal, hcal, hceq⟩
    · rcases mem_addToGroup_key hkey with h | h
      · exact Or.inl h
      · exact Or.inr ⟨c, by simp, h.symm⟩
    · exact Or.inr ⟨cal, by simp [hcal], hceq⟩

/-- C9: per-account failure isolation in `getCompositeBusy`, and the
refresh-failure handling of `getAuthenticatedClient`.  (1) If `fetch1`
fails for one account where `fetch2` returns an empty list, and the two
agree elsewhere, the returned busy blocks are identical — the failing
account contributes an empty list and the error never escapes.  (2) A
group whose fetch fails is reported on the soft-failure channel.
(3) Every account actually consulted is a valid one — so an account marked
invalid is excluded from availability computations.  (4) A token-refresh
failure within the 60-second expiry skew marks the stored account invalid
and throws. -/
theorem getCompositeBusy_failure_isolation (accounts : List ConnectedAccount)
    (calendars : List Calendar) (userId : String)
    (fetch1 fetch2 : String → List String → Except String (List BusyBlock))
    (failedId : String)
    (hagree : ∀ aid cals, aid ≠ failedId → fetch1 aid cals = fetch2 aid cals)
    (hfail : ∀ cals, ∃ e, fetch1 failedId cals = Except.error e)
    (hempty : ∀ cals, fetch2 failedId cals = Except.ok []) :
    ((getCompositeBusy accounts calendars userId fetch1).1 =
      (getCompositeBusy accounts calendars userId fetch2).1)
    ∧ (∀ g ∈ groupByAccount (calendars.filter fun cal =>
          cal.userId == userId && cal.isSelected
            && accounts.any fun a => a.id == cal.connectedAccountId && a.isValid),
        g.1 = failedId →
          failedId ∈ (getCompositeBusy accounts calendars userId fetch1).2)
    ∧ (∀ g ∈ groupByAccount (calendars.filter fun cal =>
          cal.userId == userId && cal.isSelected
            && accounts.any fun a => a.id == cal.connectedAccountId && a.isValid),
        ∃ acc ∈ accounts, acc.id = g.1 ∧ acc.isValid = true)
    ∧ (∀ (account : ConnectedAccount) (nowMs : Int),
        account.expiresAt < nowMs + 60000 →
          (refreshStep account nowMs false).1.isValid = false
          ∧ (refreshStep account nowMs false).2 = true) := by
  refine ⟨?_, ?_, ?_, ?_⟩
  · unfold getCompositeBusy
    simp only []
    congr 1
    rw [List.map_map, List.map_map]
    refine List.map_congr_left fun g hg => ?_
    simp only [Function.comp_apply]
    by_cases hid : g.1 = failedId
    · obtain ⟨e, he⟩ := hfail g.2
      rw [hid, he, hempty g.2]
    · rw [hagree g.1 g.2 hid]
  · intro g hg hgid
    unfold getCompositeBusy
    simp only []
    refine List.mem_filterMap.mpr ?_
    refine ⟨_, List.mem_map_of_mem _ hg, ?_⟩
    obtain ⟨e, he⟩ := hfail g.2
    show Prod.snd (match fetch1 g.1 g.2 with
      | Except.ok blocks => (blocks, (none : Option String))
      | Except.error _ => ([], some g.1)) = some failedId
    rw [hgid, he]
  · intro g hg
    rcases mem_groupByAccount_key _ [] g hg with hkey | ⟨cal, hcal, hceq⟩
    · simp at hkey
    · have hsel := List.mem_filter.mp hcal
      obtain ⟨a, ha, haeq⟩ := List.any_eq_true.mp (by
        have := hsel.2
        simp only [Bool.and_eq_true] at this
        exact this.2)
      simp only [Bool.and_eq_true, beq_iff_eq] at haeq
      exact ⟨a, ha, by rw [← hceq, ← haeq.1], haeq.2⟩
  · intro account nowMs hexp
    unfold refreshStep
    rw [if_pos (by simp [hexp])]
    exact ⟨rfl, rfl⟩

/-- Closed instantiation of the merge-correctness theorem. -/
theorem mergeBusyBlocks_correct_witness :
    (∀ b ∈ wBlocksC3, b.start < b.stop)
    ∧ (((mergeBusyBlocks wBlocksC3).Pairwise fun a b => a.start ≤ b.start)
      ∧ ((mergeBusyBlocks wBlocksC3).Pairwise fun a b => ∀ t : Int,
          ¬(inBlock a t ∧ inBlock b t))
      ∧ (∀ t : Int, covers (mergeBusyBlocks wBlocksC3) t ↔ covers wBlocksC3 t)
      ∧ (∀ a ∈ wBlocksC3, ∀ b ∈ wBlocksC3, a.start ≤ b.start → b.start ≤ a.stop →
          ∃ m ∈ mergeBusyBlocks wBlocksC3,
            m.start ≤ min a.start b.start ∧ max a.stop b.stop ≤ m.stop)) :=
  ⟨by decide, mergeBusyBlocks_correct wBlocksC3 (by decide)⟩

/-- Closed instantiation of the buffered-overlap theorem. -/
theorem isSlotBusy_iff_intersects_witness :
    ((0:Int) < 30)
    ∧ ((isSlotBusy 0 30 [BusyBlock.mk 10 20 "a"] 0 0 = true ↔
        ∃ b ∈ [BusyBlock.mk 10 20 "a"],
          intersects (0 - 0) (30 + 0) b.start b.stop)
      ∧ (∀ b : BusyBlock, b.stop = 0 ∨ b.start = 30 →
          isSlotBusy 0 30 [b] 0 0 = false)) :=
  ⟨by decide, isSlotBusy_iff_intersects 0 30 [BusyBlock.mk 10 20 "a"] 0 0
    (by decide) (by decide) (by decide) (by decide)⟩

/-- Closed instantiation of the effective-window theorem. -/
theorem generateAvailableSlots_window_witness :
    ((0:Int) < wCfgC5.duration) ∧ ((0:Int) < wCfgC5.slotInterval)
    ∧ ((min 60 (0 + 1440 * wCfgC5.schedulingWindow) <
          max 0 (0 + wCfgC5.minimumNotice) →
        generateAvailableSlots 0 wCfgC5 [] [] 0 0 60 (by decide) (by decide) = [])
      ∧ ∀ s ∈ generateAvailableSlots 0 wCfgC5 [] [] 0 0 60 (by decide) (by decide),
          0 + wCfgC5.minimumNotice ≤ s.start
          ∧ s.start ≤ 0 + 1440 * wCfgC5.schedulingWindow) :=
  ⟨by decide, by decide,
    generateAvailableSlots_window 0 wCfgC5 [] [] 0 0 60 (by decide) (by decide)⟩

/-- Closed instantiation of the SlotTaken characterisation. -/
theorem postBooking_slotTaken_iff_witness :
    (wDB.bookings.find? (fun b => b.idempotencyKey == some (postKey wReq id 0)) = none)
    ∧ (wEventType.isActive = true)
    ∧ (((postBooking wDB wReq true true id 0 "u1" false none true).1 =
          PostResponse.slotTaken ↔
        (false = false ∨ (wEventType.hasDestinationCalendar = true ∧
          insertConflict wDB wEventType.userId wReq.startTime
            (wReq.startTime + wEventType.duration) (postKey wReq id 0) = true)))
      ∧ ((postBooking wDB wReq true true id 0 "u1" false none true).1 =
            PostResponse.slotTaken →
        (postBooking wDB wReq true true id 0 "u1" false none true).2 = wDB)) :=
  ⟨rfl, rfl, postBooking_slotTaken_iff wDB wReq id 0 "u1" false none true wEventType
    rfl (by decide) rfl⟩

/-- Closed instantiation of the idempotent-replay theorem. -/
theorem postBooking_idempotent_replay_witness :
    (wDB6.bookings.find? (fun b =>
        b.idempotencyKey == some (postKey wReq id 0)) = some wPrior)
    ∧ postBooking wDB6 wReq true true id 0 "u1" true none true =
        (PostResponse.okExisting wPrior.uid wPrior.startTime wPrior.endTime
          wPrior.meetingUrl, wDB6)
    ∧ postKey wReqNoKey id 0 =
        id (wReqNoKey.eventTypeId ++ ":" ++ wReqNoKey.startTimeStr ++ ":"
          ++ wReqNoKey.attendeeEmail ++ ":" ++ toString (0 : Int)) :=
  ⟨by decide,
    (postBooking_idempotent_replay wDB6 wReq id 0 "u1" true none true wPrior).1
      (by decide),
    (postBooking_idempotent_replay wDB6 wReqNoKey id 0 "u1" true none true wPrior).2
      rfl⟩

/-- Closed instantiation of the post-commit isolation theorem. -/
theorem postBooking_post_commit_isolation_witness :
    (insertConflict wDB wEventType.userId wReq.startTime
      (wReq.startTime + wEventType.duration) (postKey wReq id 0) = false)
    ∧ ((∃ url, (postBooking wDB wReq true true id 0 "u1" true none true).1 =
          PostResponse.created "u1" wReq.startTime
            (wReq.startTime + wEventType.duration) url)
      ∧ ∃ b ∈ (postBooking wDB wReq true true id 0 "u1" true none true).2.bookings,
          b.uid = "u1" ∧ b.startTime = wReq.startTime
          ∧ b.endTime = wReq.startTime + wEventType.duration
          ∧ b.status = (if wEventType.requiresConfirmation then BookingStatus.PENDING
              else BookingStatus.CONFIRMED)) :=
  ⟨by decide, postBooking_post_commit_isolation wDB wReq id 0 "u1" none true wEventType
    rfl (by decide) rfl rfl (by decide)⟩

/-- Closed instantiation of the overlap-blocking theorem. -/
theorem isSlotAvailable_false_of_overlap_witness :
    (wBookingC7 ∈ [wBookingC7])
    ∧ (wBookingC7.status = BookingStatus.PENDING
        ∨ wBookingC7.status = BookingStatus.CONFIRMED)
    ∧ isSlotAvailable 0 wCfgC7 [] [wBookingC7] 0 0 30 = false :=
  ⟨by decide, by decide,
    isSlotAvailable_false_of_overlap 0 wCfgC7 [] [wBookingC7] 0 0 30 wBookingC7
      (by decide) rfl (by decide) (by decide) (by decide)⟩

/-- Closed instantiation of the replay-before-checks theorem. -/
theorem postBooking_replay_before_checks_witness :
    (wPriorCancelled.status = BookingStatus.CANCELLED)
    ∧ postBooking wDB10 wReq true true id 0 "u1" false none true =
        (PostResponse.okExisting wPriorCancelled.uid wPriorCancelled.startTime
          wPriorCancelled.endTime wPriorCancelled.meetingUrl, wDB10) :=
  ⟨rfl, postBooking_replay_before_checks wDB10 wReq id 0 "u1" none true wPriorCancelled
    (by decide) rfl (by decide)⟩

/-- Closed instantiation of the failure-isolation theorem. -/
theorem getCompositeBusy_failure_isolation_witness :
    (wFetchOk "A" ["a1"] = Except.ok [])
    ∧ (((getCompositeBusy wAccounts wCalendars "host" wFetchFail).1 =
        (getCompositeBusy wAccounts wCalendars "host" wFetchOk).1)
      ∧ (∀ g ∈ groupByAccount (wCalendars.filter fun cal =>
            cal.userId == "host" && cal.isSelected
              && wAccounts.any fun a => a.id == cal.connectedAccountId && a.isValid),
          g.1 = "A" →
            "A" ∈ (getCompositeBusy wAccounts wCalendars "host" wFetchFail).2)
      ∧ (∀ g ∈ groupByAccount (wCalendars.filter fun cal =>
            cal.userId == "host" && cal.isSelected
              && wAccounts.any fun a => a.id == cal.connectedAccountId && a.isValid),
          ∃ acc ∈ wAccounts, acc.id = g.1 ∧ acc.isValid = true)
      ∧ (∀ (account : ConnectedAccount) (nowMs : Int),
          account.expiresAt < nowMs + 60000 →
            (refreshStep account nowMs false).1.isValid = false
            ∧ (refreshStep account nowMs false).2 = true)) :=
  ⟨rfl, getCompositeBusy_failure_isolation wAccounts wCalendars "host"
    wFetchFail wFetchOk "A"
    (fun aid cals h => by unfold wFetchFail wFetchOk; rw [if_neg h])
    (fun cals => ⟨"network", by unfold wFetchFail; rw [if_pos rfl]⟩)
    (fun cals => rfl)⟩

end CalBook
